import Mathlib

/-!
Verification of the undertone voice-dictation engine core against its
natural-language specification.  The Python modules `cleanup.py`, `audio.py`,
`transcriber.py`, `engine.py` and `hotkeys.py` are shallowly embedded below:
pure functions become Lean functions, the stateful components become explicit
state-passing functions, HTTP exchanges become oracle parameters describing
the observable outcome of each network call, and floating-point literals are
modelled as exact rationals.
-/

namespace Undertone

/-! ## Character classes (Python `re` semantics, ASCII range) -/

/-- Whitespace characters recognised by Python regex `\s` and `str.strip`
over the ASCII range. -/
def wsChar (c : Char) : Bool :=
  c == ' ' || c == '\t' || c == '\n' || c == '\r' || c == '\x0b' || c == '\x0c'

/-- Word characters: Python regex `\w` over the ASCII range
(letters, digits, underscore). -/
def wordChar (c : Char) : Bool :=
  c.isAlphanum || c == '_'

/-- Case-insensitive character comparison, as under `re.IGNORECASE`. -/
def ciEq (a b : Char) : Bool :=
  a.toLower == b.toLower

/-- The class `[a-z]` under `re.IGNORECASE`: matches both cases. -/
def azClass (c : Char) : Bool :=
  97 ≤ c.toLower.toNat && c.toLower.toNat ≤ 122

/-! ## A small regex engine

`cleanup.py` applies nine fixed patterns with `re.sub(pattern, "", text,
flags=re.IGNORECASE)`.  The patterns use only: literal characters, an optional
literal (`,?`), one-or-more and zero-or-more over a character class, word
boundaries (`\b`), single-character lookahead `(?=..)` / `(?!..)`,
sequencing and alternation.  The matcher below implements exactly that
fragment with Python priority semantics: alternatives are tried left to
right and quantifiers are greedy with backtracking. -/

inductive RE where
  | epsR : RE
  | chR : Char → RE
  | optCh : Char → RE
  | clsPlus : (Char → Bool) → RE
  | clsStar : (Char → Bool) → RE
  | wordB : RE
  | look : Bool → (Char → Bool) → RE
  | seqR : RE → RE → RE
  | altR : RE → RE → RE

/-- Greedy star over a character class in continuation-passing style: consume
the longest run of `p` that the continuation `k` accepts, backtracking one
character at a time.  `prev` is the character just before the current
position (needed for later word-boundary tests). -/
def runCls (p : Char → Bool) (k : Option Char → List Char → Option (List Char)) :
    Option Char → List Char → Option (List Char)
  | prev, [] => k prev []
  | prev, a :: rest =>
    if p a then
      match runCls p k (some a) rest with
      | some r => some r
      | none => k prev (a :: rest)
    else k prev (a :: rest)

/-- Backtracking matcher in continuation-passing style.  `prev` is the
character just before the current position; `k` receives the position after
the part matched so far and returns the suffix after a complete match.  The
first success in Python priority order is returned. -/
def mrun : RE → (Option Char → List Char → Option (List Char)) →
    Option Char → List Char → Option (List Char)
  | .epsR, k, prev, s => k prev s
  | .chR c, k, _, s =>
    match s with
    | [] => none
    | a :: rest => if ciEq a c then k (some a) rest else none
  | .optCh c, k, prev, s =>
    match s with
    | [] => k prev []
    | a :: rest =>
      if ciEq a c then
        match k (some a) rest with
        | some r => some r
        | none => k prev (a :: rest)
      else k prev (a :: rest)
  | .clsPlus p, k, _, s =>
    match s with
    | [] => none
    | a :: rest => if p a then runCls p k (some a) rest else none
  | .clsStar p, k, prev, s => runCls p k prev s
  | .wordB, k, prev, s =>
    let l := match prev with | some c => wordChar c | none => false
    let r := match s with | a :: _ => wordChar a | [] => false
    if l != r then k prev s else none
  | .look pos p, k, prev, s =>
    let h := match s with | a :: _ => p a | [] => false
    if pos == h then k prev s else none
  | .seqR a b, k, prev, s => mrun a (fun p2 s2 => mrun b k p2 s2) prev s
  | .altR a b, k, prev, s =>
    match mrun a k prev s with
    | some r => some r
    | none => mrun b k prev s

/-- Try to match `r` at the current position; on success return the suffix
after the matched text (the leftmost match that Python `re` would take at
this position). -/
def matchAt (r : RE) (prev : Option Char) (s : List Char) : Option (List Char) :=
  mrun r (fun _ rest => some rest) prev s

/-- `re.sub(pattern, "", s)` for a pattern that always consumes at least one
character (true of every FILLER pattern): scan left to right over the
original string, drop each match and continue right after it, keeping
unmatched characters.  `prev` tracks the original character before the
current position so that word boundaries are judged against the original
string.  The fuel argument is an upper bound on the number of scan steps
(the string length suffices, since every step consumes at least one
character of the input). -/
def reSubNilAux : Nat → RE → Option Char → List Char → List Char
  | 0, _, _, s => s
  | _ + 1, _, _, [] => []
  | fuel + 1, r, prev, c :: rest =>
    match matchAt r prev (c :: rest) with
    | some rest2 =>
      let n := (c :: rest).length - rest2.length
      if n = 0 then c :: reSubNilAux fuel r (some c) rest
      else
        let lastC := ((c :: rest).take n).getLastD c
        reSubNilAux fuel r (some lastC) rest2
    | none => c :: reSubNilAux fuel r (some c) rest

def reSubNil (r : RE) (s : List Char) : List Char :=
  reSubNilAux s.length r none s

/-! ## The FILLER_PATTERNS of cleanup.py, in source order -/

/-- One-or-more repetitions of a literal character, case-insensitive. -/
def chPlus (c : Char) : RE := .clsPlus (fun a => ciEq a c)

/-- A sequence of literal characters matched case-insensitively. -/
def strRE (w : String) : RE := w.data.foldr (fun c r => .seqR (.chR c) r) .epsR

def seqList (rs : List RE) : RE := rs.foldr .seqR .epsR

/-- Pattern 1: hesitation sounds with repeated-letter variants,
`\b(um+|uh+|er+|ah+)\b`. -/
def fillerP1 : RE :=
  seqList [.wordB,
    .altR (.seqR (.chR 'u') (chPlus 'm'))
      (.altR (.seqR (.chR 'u') (chPlus 'h'))
        (.altR (.seqR (.chR 'e') (chPlus 'r')) (.seqR (.chR 'a') (chPlus 'h')))),
    .wordB]

/-- Pattern 2: `\b(like,?\s+)(?=\w)`. -/
def fillerP2 : RE :=
  seqList [.wordB, strRE "like", .optCh ',', .clsPlus wsChar, .look true wordChar]

/-- Pattern 3: `\b(you know,?\s*)`. -/
def fillerP3 : RE :=
  seqList [.wordB, strRE "you know", .optCh ',', .clsStar wsChar]

/-- Pattern 4: `\b(basically,?\s*)`. -/
def fillerP4 : RE :=
  seqList [.wordB, strRE "basically", .optCh ',', .clsStar wsChar]

/-- Pattern 5: `\b(actually,?\s*)(?![\w])`. -/
def fillerP5 : RE :=
  seqList [.wordB, strRE "actually", .optCh ',', .clsStar wsChar, .look false wordChar]

/-- Pattern 6: `\b(so,?\s+)(?=[a-z])` (the class is case-insensitive under
the IGNORECASE flag the source passes). -/
def fillerP6 : RE :=
  seqList [.wordB, strRE "so", .optCh ',', .clsPlus wsChar, .look true azClass]

/-- Pattern 7: `\b(i mean,?\s*)`. -/
def fillerP7 : RE :=
  seqList [.wordB, strRE "i mean", .optCh ',', .clsStar wsChar]

/-- Pattern 8: `\b(kind of|kinda)\s+`. -/
def fillerP8 : RE :=
  seqList [.wordB, .altR (strRE "kind of") (strRE "kinda"), .clsPlus wsChar]

/-- Pattern 9: `\b(sort of|sorta)\s+`. -/
def fillerP9 : RE :=
  seqList [.wordB, .altR (strRE "sort of") (strRE "sorta"), .clsPlus wsChar]

/-- FILLER_PATTERNS from cleanup.py, in order. -/
def FILLER_PATTERNS : List RE :=
  [fillerP1, fillerP2, fillerP3, fillerP4, fillerP5, fillerP6, fillerP7,
   fillerP8, fillerP9]

/-! ## Stage 1: TextCleaner._regex_clean -/

/-- `re.sub(r"\s+", " ", s)`: replace each maximal whitespace run by a single
space (fuel-bounded scan; the string length suffices as fuel). -/
def collapseWsAux : Nat → List Char → List Char
  | 0, s => s
  | _ + 1, [] => []
  | fuel + 1, c :: rest =>
    if wsChar c then ' ' :: collapseWsAux fuel (rest.dropWhile (fun a => wsChar a))
    else c :: collapseWsAux fuel rest

def collapseWs (s : List Char) : List Char :=
  collapseWsAux s.length s

/-- Python `str.strip()`: drop whitespace from both ends. -/
def pyStrip (s : List Char) : List Char :=
  ((s.dropWhile (fun c => wsChar c)).reverse.dropWhile (fun c => wsChar c)).reverse

/-- Python `str.strip()` on a `String`. -/
def pyStripS (s : String) : String :=
  String.mk (pyStrip s.data)

/-- `TextCleaner._regex_clean` from cleanup.py: apply the nine filler
patterns in order, collapse whitespace and strip, capitalize the first
character, and append a period when the final character is not terminal
punctuation. -/
def regexClean (text : String) : String :=
  let cleaned := FILLER_PATTERNS.foldl (fun acc p => reSubNil p acc) text.data
  let cleaned := pyStrip (collapseWs cleaned)
  let cleaned :=
    match cleaned with
    | [] => ([] : List Char)
    | c :: rest => c.toUpper :: rest
  match cleaned.getLast? with
  | none => String.mk []
  | some c =>
    if c == '.' || c == '!' || c == '?' then String.mk cleaned
    else String.mk (cleaned ++ ['.'])

/-! ## Stage 2: the LLM pass (response validation)

The HTTP exchange of `_llm_clean` is abstracted by an oracle value: `none`
models a raised transport error (or a cleaner constructed without a client),
`some raw` models a successful POST whose first-choice message content is
`raw`.  Everything the code does to that content is embedded. -/

/-- The apostrophe character (several conversational openers contain it). -/
def apos : Char := Char.ofNat 39

/-- The backtick character (markdown code fences). -/
def btick : Char := Char.ofNat 96

/-- `_CONVERSATIONAL_PREFIXES` from cleanup.py, in source order. -/
def convOpeners : List String :=
  ["Sure,", "Sure!", "Here is",
   "Here" ++ String.singleton apos ++ "s",
   "I" ++ String.singleton apos ++ "d be happy to",
   "I would be happy to",
   "Of course", "Certainly", "Absolutely", "Let me", "The meaning of",
   "To fix", "You can", "I can", "I think"]

/-- List-level `startsWith`: does `s` begin with `p`? -/
def startsWithL : List Char → List Char → Bool
  | [], _ => true
  | _ :: _, [] => false
  | p :: ps, c :: cs => p == c && startsWithL ps cs

/-- Python `str.startswith` on `String`s. -/
def strStartsWith (s p : String) : Bool :=
  startsWithL p.data s.data

/-- `TextCleaner._looks_like_chat`: the sanitized response begins with one of
the conversational openers. -/
def looksLikeChat (result : String) : Bool :=
  convOpeners.any (fun p => strStartsWith result p)

def openTag : List Char := ('<' :: ("transcript>".data))

def closeTag : List Char := ('<' :: '/' :: ("transcript>".data))

/-- `re.sub(r"</?transcript>", "", s)`: remove every occurrence of the
opening or closing transcript tag, scanning left to right (fuel-bounded;
the string length suffices). -/
def removeTagsAux : Nat → List Char → List Char
  | 0, s => s
  | _ + 1, [] => []
  | fuel + 1, c :: rest =>
    if startsWithL openTag (c :: rest) then
      removeTagsAux fuel ((c :: rest).drop openTag.length)
    else if startsWithL closeTag (c :: rest) then
      removeTagsAux fuel ((c :: rest).drop closeTag.length)
    else c :: removeTagsAux fuel rest

/-- Three backticks: a markdown code fence. -/
def fenceTicks : List Char := [btick, btick, btick]

/-- The first fence substitution of `_sanitize_response`: strip a leading
code fence, an optional language word after it, and one following newline
(anchored pattern; the replacement is empty, so at most the prefix is
removed). -/
def stripLeadFence (s : List Char) : List Char :=
  if startsWithL fenceTicks s then
    let rest := (s.drop 3).dropWhile (fun c => wordChar c)
    match rest with
    | '\n' :: r => r
    | r => r
  else s

/-- Helper for the trailing-fence substitution: the input is reversed; drop a
trailing fence together with one newline just before it, if present. -/
def dropRevFence : List Char → Option (List Char)
  | a :: b :: c :: rest =>
    if a == btick && b == btick && c == btick then
      some (match rest with | '\n' :: r2 => r2 | r2 => r2)
    else none
  | _ => none

/-- The second fence substitution of `_sanitize_response`: strip a trailing
code fence preceded by an optional newline.  The `$` anchor of Python `re`
also matches just before a single trailing newline, so a fence directly
before a final newline is removed as well. -/
def stripTrailFence (s : List Char) : List Char :=
  let r := s.reverse
  match dropRevFence r with
  | some r2 => r2.reverse
  | none =>
    match r with
    | '\n' :: rr =>
      match dropRevFence rr with
      | some r2 => ('\n' :: r2).reverse
      | none => s
    | _ => s

/-- `TextCleaner._sanitize_response`: remove echoed transcript tags and
strip, then remove markdown code-fence wrapping and strip again. -/
def sanitizeResponse (result : String) : String :=
  let s1 := pyStrip (removeTagsAux result.data.length result.data)
  let s2 := stripLeadFence s1
  let s3 := stripTrailFence s2
  String.mk (pyStrip s3)

/-- The length-ratio guard of `_llm_clean`:
`0.3 < len(result) / max(len(text), 1) < 2.0`, with the float literals
modelled as exact rationals. -/
def lenRatioInWindow (textLen resultLen : Nat) : Bool :=
  decide ((3 : ℚ) / 10 < (resultLen : ℚ) / ((max textLen 1 : Nat) : ℚ)) &&
    decide ((resultLen : ℚ) / ((max textLen 1 : Nat) : ℚ) < 2)

/-- `TextCleaner._llm_clean`: on a successful exchange the content is
stripped, sanitized, rejected if it looks like a chatbot answer, and
accepted only when non-empty and inside the length-ratio window; any
transport failure (`none`) is rejected.  `none` means "fall back to the
regex stage". -/
def llmClean (text : String) (llmResp : Option String) : Option String :=
  match llmResp with
  | none => none
  | some raw =>
    let result := pyStripS raw
    let result := sanitizeResponse result
    if looksLikeChat result then none
    else if result != "" && lenRatioInWindow text.length result.length then some result
    else none

/-- `TextCleaner.clean`: empty input is returned unchanged; when the LLM
stage is enabled (`llmOn` models `self.llm_enabled`, which already requires
an API key) a truthy LLM result wins, otherwise the regex stage is the
result. -/
def clean (llmOn : Bool) (llmResp : Option String) (text : String) : String :=
  if text = "" then text
  else if llmOn then
    match llmClean text llmResp with
    | some r => if r = "" then regexClean text else r
    | none => regexClean text
  else regexClean text

/-! ## GroqTranscriber.transcribe: the retry loop of transcriber.py

Each HTTP POST is abstracted by a `CallOutcome`; the `script` oracle gives
the outcome of the i-th call.  Sleeps are recorded as the rational seconds
passed to `time.sleep`. -/

/-- `_RETRYABLE_STATUSES` from transcriber.py. -/
def _RETRYABLE_STATUSES : List Nat := [429, 500, 502, 503]

/-- `_MAX_RETRIES` from transcriber.py. -/
def _MAX_RETRIES : Nat := 2

/-- `_BACKOFF_SCHEDULE = (0.3, 0.6)`, floats as exact rationals. -/
def _BACKOFF_SCHEDULE : List ℚ := [3 / 10, 6 / 10]

/-- Observable outcome of one HTTP POST to the transcription endpoint:
a response with a status code and the `text` field of its JSON body, a
network timeout (`httpx.TimeoutException`), or any other exception raised
inside the `try` block (connection errors, malformed response payloads). -/
inductive CallOutcome where
  | status : Nat → String → CallOutcome
  | timeout : CallOutcome
  | failure : CallOutcome
deriving DecidableEq

/-- The error `transcribe` finishes with: `HTTPStatusError` raised by
`raise_for_status`, a timeout re-raised after exhausting retries, any other
exception re-raised after exhausting retries, or the `ValueError` for a
missing API key. -/
inductive TransErr where
  | httpStatus : Nat → TransErr
  | timeout : TransErr
  | failure : TransErr
  | noApiKey : TransErr
deriving DecidableEq

deriving instance DecidableEq for Except

/-- Result of a `transcribe` run: the value returned or error raised, the
number of HTTP POSTs made, and the sleeps performed (in order). -/
structure TransRun where
  result : Except TransErr String
  calls : Nat
  sleeps : List ℚ
deriving DecidableEq

/-- The `for attempt in range(_MAX_RETRIES + 1)` loop of
`GroqTranscriber.transcribe`.  A retryable status with retries left sleeps
`_BACKOFF_SCHEDULE[attempt]` and retries; otherwise `raise_for_status`
raises `HTTPStatusError` on any non-2xx response (httpx raises for 1xx and
3xx as well as 4xx/5xx, and the client does not follow redirects by
default) and on a 2xx the body text is stripped and returned.  A timeout or
any other exception retries while retries remain and re-raises on the last
attempt.  `fuel` is the number of remaining loop iterations; the
fuel-exhausted case corresponds to the unreachable `raise last_exc` after
the loop. -/
def transcribeLoop (script : Nat → CallOutcome) : Nat → Nat → TransRun
  | _, 0 => ⟨.error .failure, 0, []⟩
  | attempt, fuel + 1 =>
    match script attempt with
    | .status code body =>
      if code ∈ _RETRYABLE_STATUSES ∧ attempt < _MAX_RETRIES then
        let r := transcribeLoop script (attempt + 1) fuel
        ⟨r.result, r.calls + 1, _BACKOFF_SCHEDULE.getD attempt 0 :: r.sleeps⟩
      else if 200 ≤ code ∧ code < 300 then ⟨.ok (pyStripS body), 1, []⟩
      else ⟨.error (.httpStatus code), 1, []⟩
    | .timeout =>
      if attempt < _MAX_RETRIES then
        let r := transcribeLoop script (attempt + 1) fuel
        ⟨r.result, r.calls + 1, _BACKOFF_SCHEDULE.getD attempt 0 :: r.sleeps⟩
      else ⟨.error .timeout, 1, []⟩
    | .failure =>
      if attempt < _MAX_RETRIES then
        let r := transcribeLoop script (attempt + 1) fuel
        ⟨r.result, r.calls + 1, _BACKOFF_SCHEDULE.getD attempt 0 :: r.sleeps⟩
      else ⟨.error .failure, 1, []⟩

/-- `GroqTranscriber.transcribe`: a missing API key raises `ValueError`
before any call; otherwise the retry loop runs with at most
`_MAX_RETRIES + 1` iterations. -/
def transcribe (apiKey : String) (script : Nat → CallOutcome) : TransRun :=
  if apiKey = "" then ⟨.error .noApiKey, 0, []⟩
  else transcribeLoop script 0 (_MAX_RETRIES + 1)

/-! ## route_transcription from transcriber.py -/

/-- Result of a `route_transcription` run.  `result` is the returned
`(text, source)` pair or an uncaught exception propagating to the caller;
`groqCalled` records whether `groq.transcribe` was invoked;
`localCalledAtPos` records the clip position at the moment
`local.transcribe` is invoked (`none` when it is not invoked). -/
structure RouteRun where
  result : Except Unit (String × String)
  groqCalled : Bool
  localCalledAtPos : Option Nat
deriving DecidableEq

/-- `route_transcription`: the Groq call is abstracted by its outcome
`groqRes` and the clip position `groqPosAfter` it leaves the buffer at; the
local call by its outcome `localRes`.  `bufPos` is the clip position on
entry.  When the configured primary is "groq" and an API key is present the
primary is tried; any exception from it is caught, the clip is rewound with
`seek(0)`, and the local backend is invoked — whose own failure is not
caught. -/
def route_transcription (primary apiKey : String)
    (groqRes : Except Unit String) (groqPosAfter : Nat)
    (localRes : Except Unit String) (bufPos : Nat) : RouteRun :=
  if primary = "groq" ∧ apiKey ≠ "" then
    match groqRes with
    | .ok t => ⟨.ok (t, "groq"), true, none⟩
    | .error _ =>
      let posAfterSeek : Nat := 0
      ⟨localRes.map (fun t => (t, "local")), true, some posAfterSeek⟩
  else ⟨localRes.map (fun t => (t, "local")), false, some bufPos⟩

/-! ## AudioRecorder from audio.py -/

/-- State of an `AudioRecorder`: the bounded pre-buffer with its capacity,
the accumulation buffer, and the recording flag.  Chunks are the int16
sample arrays delivered by the capture callback. -/
structure AudioState where
  preBufMax : Nat
  preBuffer : List (List Int)
  recordingChunks : List (List Int)
  isRecording : Bool
deriving DecidableEq

/-- `collections.deque(maxlen := m).append`: append on the right, dropping
from the left when the capacity is exceeded. -/
def dequePush (m : Nat) (l : List (List Int)) (c : List Int) : List (List Int) :=
  let l2 := l ++ [c]
  if m < l2.length then l2.drop (l2.length - m) else l2

/-- `AudioRecorder.__init__` with `chunk_size = 1024`: the pre-buffer
capacity is `int(sample_rate * pre_buffer_sec / chunk_size)`, at least 1. -/
def audioInit (sampleRate : Nat) (preBufferSec : ℚ) : AudioState :=
  ⟨max (((sampleRate : ℚ) * preBufferSec / 1024).floor.toNat) 1, [], [], false⟩

/-- `AudioRecorder._audio_callback`: under the lock, route the copied chunk
into the accumulation buffer while recording, else into the pre-buffer. -/
def audioCallback (s : AudioState) (chunk : List Int) : AudioState :=
  if s.isRecording then { s with recordingChunks := s.recordingChunks ++ [chunk] }
  else { s with preBuffer := dequePush s.preBufMax s.preBuffer chunk }

/-- `AudioRecorder.start_recording`: the accumulation buffer becomes the
current pre-buffer contents, the pre-buffer is cleared, recording is set. -/
def startRecording (s : AudioState) : AudioState :=
  { s with recordingChunks := s.preBuffer, preBuffer := [], isRecording := true }

/-- Concatenation of chunks in capture order (`np.concatenate`). -/
def flattenChunks (l : List (List Int)) : List Int :=
  l.foldr (fun c acc => c ++ acc) []

/-- `AudioRecorder.stop_recording`: clear the recording flag, take ownership
of the accumulated chunks, and return `none` when nothing was captured,
otherwise the WAV payload — the chunks concatenated in capture order. -/
def stopRecording (s : AudioState) : AudioState × Option (List Int) :=
  let chunks := s.recordingChunks
  ({ s with isRecording := false, recordingChunks := [] },
   if chunks.isEmpty then none else some (flattenChunks chunks))

/-! ## UndertoneEngine from engine.py -/

/-- Engine-session state: the `_recording` / `_transcribing` flags and the
recorder the engine owns. -/
structure EngineState where
  recording : Bool
  transcribing : Bool
  audio : AudioState
deriving DecidableEq

/-- Externally visible actions of the trigger handlers, in order. -/
inductive EngineAction where
  | playStartSound : EngineAction
  | playStopSound : EngineAction
  | setTray : String → EngineAction
  | spawnTranscribe : EngineAction
deriving DecidableEq

/-- `UndertoneEngine._on_record_start`: a no-op while recording or
transcribing; otherwise set the flag, play the start cue, arm the recorder
and update the tray. -/
def onRecordStart (s : EngineState) : EngineState × List EngineAction :=
  if s.recording || s.transcribing then (s, [])
  else
    let s1 := { s with recording := true }
    let s2 := { s1 with audio := startRecording s1.audio }
    (s2, [.playStartSound, .setTray "recording"])

/-- `UndertoneEngine._on_record_stop`: a no-op unless recording; otherwise
clear the flag, play the stop cue, finalize the clip; with no clip return to
ready, else mark transcribing and spawn the worker thread. -/
def onRecordStop (s : EngineState) : EngineState × List EngineAction :=
  if !s.recording then (s, [])
  else
    let s1 := { s with recording := false }
    let p := stopRecording s1.audio
    let s2 := { s1 with audio := p.1 }
    match p.2 with
    | none => (s2, [.playStopSound, .setTray "ready"])
    | some _ =>
      ({ s2 with transcribing := true },
       [.playStopSound, .setTray "processing", .spawnTranscribe])

/-- The `finally` block of `UndertoneEngine._transcribe_and_type`: the
worker thread clears the transcribing flag when it finishes. -/
def finishTranscribe (s : EngineState) : EngineState :=
  { s with transcribing := false }

/-- Engine states reachable from a freshly constructed engine (both flags
false) through the trigger handlers and worker-thread completion. -/
inductive EngineReach : EngineState → Prop where
  | init : ∀ a : AudioState, EngineReach ⟨false, false, a⟩
  | start : ∀ s : EngineState, EngineReach s → EngineReach (onRecordStart s).1
  | stop : ∀ s : EngineState, EngineReach s → EngineReach (onRecordStop s).1
  | finish : ∀ s : EngineState, EngineReach s → EngineReach (finishTranscribe s)

/-! ## UndertoneEngine.__init__ and the GroqTranscriber keyword mismatch -/

/-- Python `TypeError` raised by CPython call machinery for a keyword
argument that is not a declared parameter. -/
inductive PyErr where
  | typeErr : String → PyErr
deriving DecidableEq

/-- Keyword parameters accepted by `GroqTranscriber.__init__`
(besides `self`). -/
def groqInitParams : List String := ["api_key", "model", "language"]

/-- The keyword-argument names `UndertoneEngine.__init__` passes in its
`GroqTranscriber(...)` call.  They are fixed by the source text: the values
come from the configuration, the names do not (`stt_cfg.get("prompt")`
yields `None` when the key is absent, and the `prompt` keyword is still
passed). -/
def engineGroqCallKeywords : List String := ["api_key", "model", "language", "prompt"]

/-- CPython call semantics for keyword arguments: the first keyword name not
among the declared parameters raises
`TypeError: unexpected keyword argument`. -/
def checkKeywordCall (params kwargs : List String) : Except PyErr Unit :=
  match kwargs.find? (fun k => !params.contains k) with
  | some k => .error (.typeErr k)
  | none => .ok ()

/-- The configuration values `UndertoneEngine.__init__` reads before and at
the `GroqTranscriber(...)` call; every field is optional exactly as a lookup
into the configuration dict is. -/
structure EngineConfig where
  sampleRate : Option Nat := none
  channels : Option Nat := none
  preBufferSeconds : Option ℚ := none
  groqModel : Option String := none
  language : Option String := none
  sttPromptValue : Option String := none

/-- `UndertoneEngine.__init__`: the recorder and the sound feedback are
constructed first (plain attribute assignment; always succeeds), then the
`GroqTranscriber(...)` call is made with the keyword names
`engineGroqCallKeywords` — CPython checks them against
`groqInitParams` before the constructor body can run. -/
def engineInit (cfg : EngineConfig) (apiKey : String) : Except PyErr EngineState := do
  let recorder := audioInit (cfg.sampleRate.getD 16000) (cfg.preBufferSeconds.getD (1 / 2))
  checkKeywordCall groqInitParams engineGroqCallKeywords
  .ok ⟨false, false, recorder⟩

/-! ## HotkeyManager from hotkeys.py -/

/-- `HotkeyLatch` state of the manager. -/
structure HotkeyState where
  pttHeld : Bool
  toggleActive : Bool
deriving DecidableEq

/-- Configured keys; key identifiers only need equality comparison. -/
structure HotkeyCfg where
  pttKey : Nat
  toggleKey : Nat
deriving DecidableEq

/-- A raw keyboard event. -/
inductive KeyEvent where
  | press : Nat → KeyEvent
  | release : Nat → KeyEvent
deriving DecidableEq

/-- The merged control callbacks. -/
inductive Callback where
  | cbStart : Callback
  | cbStop : Callback
deriving DecidableEq

/-- `HotkeyManager._on_press`: a fresh push-to-talk press marks it held and
starts unless toggle mode is active; a toggle press flips `toggle_active`
and emits the corresponding callback. -/
def onPress (cfg : HotkeyCfg) (s : HotkeyState) (k : Nat) :
    HotkeyState × List Callback :=
  if k = cfg.pttKey ∧ !s.pttHeld then
    let s1 := { s with pttHeld := true }
    if !s1.toggleActive then (s1, [.cbStart]) else (s1, [])
  else if k = cfg.toggleKey then
    if s.toggleActive then ({ s with toggleActive := false }, [.cbStop])
    else ({ s with toggleActive := true }, [.cbStart])
  else (s, [])

/-- `HotkeyManager._on_release`: a release of the held push-to-talk key
clears it and stops only when toggle mode is not active. -/
def onRelease (cfg : HotkeyCfg) (s : HotkeyState) (k : Nat) :
    HotkeyState × List Callback :=
  if k = cfg.pttKey ∧ s.pttHeld then
    let s1 := { s with pttHeld := false }
    if !s1.toggleActive then (s1, [.cbStop]) else (s1, [])
  else (s, [])

/-- Dispatch one keyboard event. -/
def hkStep (cfg : HotkeyCfg) (s : HotkeyState) : KeyEvent → HotkeyState × List Callback
  | .press k => onPress cfg s k
  | .release k => onRelease cfg s k

/-- Process a sequence of keyboard events, collecting callbacks in order. -/
def hkRun (cfg : HotkeyCfg) (s : HotkeyState) : List KeyEvent → HotkeyState × List Callback
  | [] => (s, [])
  | e :: es =>
    let p := hkStep cfg s e
    let q := hkRun cfg p.1 es
    (q.1, p.2 ++ q.2)

/-- Number of `on_start` invocations in a callback list. -/
def countStarts (l : List Callback) : Nat :=
  l.countP (fun c => decide (c = Callback.cbStart))

/-- Whether one HTTP outcome is retried by the transcriber when retries
remain (a retryable status, a timeout, or any other in-request failure). -/
def retriableOutcome : CallOutcome → Bool
  | .status c _ => decide (c ∈ _RETRYABLE_STATUSES)
  | .timeout => true
  | .failure => true

/-! ## Helper lemmas -/

theorem foldl_audioCallback_recording (cs : List (List Int)) :
    ∀ s : AudioState, s.isRecording = true →
      (cs.foldl audioCallback s).recordingChunks = s.recordingChunks ++ cs ∧
      (cs.foldl audioCallback s).isRecording = true := by
  induction cs with
  | nil => intro s h; simp [h]
  | cons c cs ih =>
    intro s h
    have step : audioCallback s c = { s with recordingChunks := s.recordingChunks ++ [c] } := by
      simp [audioCallback, h]
    rw [List.foldl_cons, step]
    obtain ⟨h1, h2⟩ := ih { s with recordingChunks := s.recordingChunks ++ [c] } (by simpa using h)
    refine ⟨?_, h2⟩
    rw [h1]
    simp

theorem transcribeLoop_calls_le (script : Nat → CallOutcome) :
    ∀ fuel attempt, (transcribeLoop script attempt fuel).calls ≤ fuel := by
  intro fuel
  induction fuel with
  | zero => intro attempt; simp [transcribeLoop]
  | succ f ih =>
    intro attempt
    unfold transcribeLoop
    cases script attempt with
    | status code body =>
      dsimp only
      by_cases hc : code ∈ _RETRYABLE_STATUSES ∧ attempt < _MAX_RETRIES
      · rw [if_pos hc]
        dsimp only
        have := ih (attempt + 1)
        omega
      · rw [if_neg hc]
        by_cases h4 : 200 ≤ code ∧ code < 300
        · rw [if_pos h4]
          dsimp only
          omega
        · rw [if_neg h4]
          dsimp only
          omega
    | timeout =>
      dsimp only
      by_cases ha : attempt < _MAX_RETRIES
      · rw [if_pos ha]
        dsimp only
        have := ih (attempt + 1)
        omega
      · rw [if_neg ha]
        dsimp only
        omega
    | failure =>
      dsimp only
      by_cases ha : attempt < _MAX_RETRIES
      · rw [if_pos ha]
        dsimp only
        have := ih (attempt + 1)
        omega
      · rw [if_neg ha]
        dsimp only
        omega

theorem transcribeLoop_calls_pos (script : Nat → CallOutcome) (attempt f : Nat) :
    1 ≤ (transcribeLoop script attempt (f + 1)).calls := by
  unfold transcribeLoop
  cases script attempt with
  | status code body =>
    dsimp only
    by_cases hc : code ∈ _RETRYABLE_STATUSES ∧ attempt < _MAX_RETRIES
    · rw [if_pos hc]
      dsimp only
      omega
    · rw [if_neg hc]
      by_cases h4 : 200 ≤ code ∧ code < 300
      · rw [if_pos h4]
      · rw [if_neg h4]
  | timeout =>
    dsimp only
    by_cases ha : attempt < _MAX_RETRIES
    · rw [if_pos ha]
      dsimp only
      omega
    · rw [if_neg ha]
  | failure =>
    dsimp only
    by_cases ha : attempt < _MAX_RETRIES
    · rw [if_pos ha]
      dsimp only
      omega
    · rw [if_neg ha]

theorem transcribeLoop_sleeps (script : Nat → CallOutcome) :
    ∀ fuel attempt, attempt + fuel = _MAX_RETRIES + 1 →
      (transcribeLoop script attempt fuel).sleeps =
        (_BACKOFF_SCHEDULE.drop attempt).take ((transcribeLoop script attempt fuel).calls - 1) := by
  intro fuel
  induction fuel with
  | zero => intro attempt _; simp [transcribeLoop]
  | succ f ih =>
    intro attempt hat
    have key : ∀ r : TransRun,
        r = transcribeLoop script (attempt + 1) f →
        attempt < _MAX_RETRIES →
        (_BACKOFF_SCHEDULE.getD attempt 0 :: r.sleeps) =
          (_BACKOFF_SCHEDULE.drop attempt).take (r.calls + 1 - 1) := by
      intro r hr hlt
      have hcalls : 1 ≤ r.calls := by
        have hf : 1 ≤ f := by
          unfold _MAX_RETRIES at hat hlt; omega
        obtain ⟨g, hg⟩ : ∃ g, f = g + 1 := ⟨f - 1, by omega⟩
        rw [hr, hg]
        exact transcribeLoop_calls_pos script (attempt + 1) g
      have hs : r.sleeps = (_BACKOFF_SCHEDULE.drop (attempt + 1)).take (r.calls - 1) := by
        rw [hr]
        exact ih (attempt + 1) (by omega)
      obtain ⟨k, hk⟩ : ∃ k, r.calls = k + 1 := ⟨r.calls - 1, by omega⟩
      have hattempt : attempt = 0 ∨ attempt = 1 := by
        unfold _MAX_RETRIES at hlt; omega
      rcases hattempt with h0 | h1
      · subst h0
        rw [hs, hk]
        simp [_BACKOFF_SCHEDULE]
      · subst h1
        rw [hs, hk]
        simp [_BACKOFF_SCHEDULE]
    unfold transcribeLoop
    cases script attempt with
    | status code body =>
      dsimp only
      by_cases hc : code ∈ _RETRYABLE_STATUSES ∧ attempt < _MAX_RETRIES
      · rw [if_pos hc]
        dsimp only
        exact key _ rfl hc.2
      · rw [if_neg hc]
        by_cases h4 : 200 ≤ code ∧ code < 300
        · rw [if_pos h4]
          simp
        · rw [if_neg h4]
          simp
    | timeout =>
      dsimp only
      by_cases ha : attempt < _MAX_RETRIES
      · rw [if_pos ha]
        dsimp only
        exact key _ rfl ha
      · rw [if_neg ha]
        simp
    | failure =>
      dsimp only
      by_cases ha : attempt < _MAX_RETRIES
      · rw [if_pos ha]
        dsimp only
        exact key _ rfl ha
      · rw [if_neg ha]
        simp

theorem transcribeLoop_retries_retriable (script : Nat → CallOutcome) :
    ∀ fuel attempt i, i + 1 < (transcribeLoop script attempt fuel).calls →
      retriableOutcome (script (attempt + i)) = true := by
  intro fuel
  induction fuel with
  | zero => intro attempt i h; simp [transcribeLoop] at h
  | succ f ih =>
    intro attempt i h
    unfold transcribeLoop at h
    cases hs : script attempt with
    | status code body =>
      rw [hs] at h
      dsimp only at h
      by_cases hc : code ∈ _RETRYABLE_STATUSES ∧ attempt < _MAX_RETRIES
      · rw [if_pos hc] at h
        dsimp only at h
        cases i with
        | zero =>
          rw [Nat.add_zero, hs]
          simp only [retriableOutcome]
          exact decide_eq_true hc.1
        | succ j =>
          have h2 : j + 1 < (transcribeLoop script (attempt + 1) f).calls := by omega
          have := ih (attempt + 1) j h2
          have harr : attempt + (j + 1) = attempt + 1 + j := by omega
          rwa [harr]
      · rw [if_neg hc] at h
        by_cases h4 : 200 ≤ code ∧ code < 300
        · rw [if_pos h4] at h
          dsimp only at h
          omega
        · rw [if_neg h4] at h
          dsimp only at h
          omega
    | timeout =>
      rw [hs] at h
      dsimp only at h
      by_cases ha : attempt < _MAX_RETRIES
      · rw [if_pos ha] at h
        dsimp only at h
        cases i with
        | zero =>
          rw [Nat.add_zero, hs]
          rfl
        | succ j =>
          have h2 : j + 1 < (transcribeLoop script (attempt + 1) f).calls := by omega
          have := ih (attempt + 1) j h2
          have harr : attempt + (j + 1) = attempt + 1 + j := by omega
          rwa [harr]
      · rw [if_neg ha] at h
        dsimp only at h
        omega
    | failure =>
      rw [hs] at h
      dsimp only at h
      by_cases ha : attempt < _MAX_RETRIES
      · rw [if_pos ha] at h
        dsimp only at h
        cases i with
        | zero =>
          rw [Nat.add_zero, hs]
          rfl
        | succ j =>
          have h2 : j + 1 < (transcribeLoop script (attempt + 1) f).calls := by omega
          have := ih (attempt + 1) j h2
          have harr : attempt + (j + 1) = attempt + 1 + j := by omega
          rwa [harr]
      · rw [if_neg ha] at h
        dsimp only at h
        omega

theorem ptt_press_preserves_toggle (cfg : HotkeyCfg) (s : HotkeyState)
    (hton : s.toggleActive = true) (hne : cfg.pttKey ≠ cfg.toggleKey) :
    (onPress cfg s cfg.pttKey).1.toggleActive = true ∧
    (onPress cfg s cfg.pttKey).2 = [] := by
  unfold onPress
  by_cases hh : s.pttHeld
  · simp [hh, hne, hton]
  · simp [hh, hton]

theorem ptt_release_preserves_toggle (cfg : HotkeyCfg) (s : HotkeyState)
    (hton : s.toggleActive = true) :
    (onRelease cfg s cfg.pttKey).1.toggleActive = true ∧
    (onRelease cfg s cfg.pttKey).2 = [] := by
  unfold onRelease
  by_cases hh : s.pttHeld
  · simp [hh, hton]
  · simp [hh, hton]

theorem hkRun_ptt_only_no_stop (cfg : HotkeyCfg) (hne : cfg.pttKey ≠ cfg.toggleKey) :
    ∀ (es : List KeyEvent) (s : HotkeyState), s.toggleActive = true →
      (∀ e ∈ es, e = KeyEvent.press cfg.pttKey ∨ e = KeyEvent.release cfg.pttKey) →
      (hkRun cfg s es).2 = [] ∧ (hkRun cfg s es).1.toggleActive = true := by
  intro es
  induction es with
  | nil => intro s hton _; simp [hkRun, hton]
  | cons e es ih =>
    intro s hton hev
    have he := hev e (by simp)
    have hstep : (hkStep cfg s e).1.toggleActive = true ∧ (hkStep cfg s e).2 = [] := by
      rcases he with h | h
      · subst h; exact ptt_press_preserves_toggle cfg s hton hne
      · subst h; exact ptt_release_preserves_toggle cfg s hton
    have hrest := ih (hkStep cfg s e).1 hstep.1 (fun x hx => hev x (by simp [hx]))
    simp only [hkRun]
    exact ⟨by simp [hstep.2, hrest.1], hrest.2⟩

theorem ptt_press_held_noop (cfg : HotkeyCfg) (hne : cfg.pttKey ≠ cfg.toggleKey)
    (s : HotkeyState) (h : s.pttHeld = true) :
    onPress cfg s cfg.pttKey = (s, []) := by
  unfold onPress
  simp [h, hne]

theorem hkRun_ptt_presses_held (cfg : HotkeyCfg) (hne : cfg.pttKey ≠ cfg.toggleKey) :
    ∀ (n : Nat) (s : HotkeyState), s.pttHeld = true →
      hkRun cfg s (List.replicate n (KeyEvent.press cfg.pttKey)) = (s, []) := by
  intro n
  induction n with
  | zero => intro s _; simp [hkRun]
  | succ m ih =>
    intro s h
    rw [List.replicate_succ]
    simp only [hkRun, hkStep]
    rw [ptt_press_held_noop cfg hne s h]
    simp [ih s h]

/-! ## Claim theorems -/

/-- C1: for every configuration and API key, `UndertoneEngine.__init__`
raises `TypeError` at its `GroqTranscriber(...)` call, because it passes the
keyword argument `prompt` which `GroqTranscriber.__init__` does not accept
(it accepts only `api_key`, `model`, `language`). -/
theorem c1_engine_init_raises_type_error (cfg : EngineConfig) (apiKey : String) :
    engineInit cfg apiKey = .error (.typeErr "prompt") := by
  rfl

/-- C2: starting a recording clears the pre-buffer, and the clip returned by
the following stop consists of exactly the pre-buffer contents at start time
followed by the chunks delivered while recording, concatenated in capture
order (`none` exactly when nothing at all was captured). -/
theorem c2_clip_is_prebuffer_then_captured (s0 : AudioState) (cs : List (List Int)) :
    (startRecording s0).preBuffer = [] ∧
    (stopRecording (cs.foldl audioCallback (startRecording s0))).2 =
      (if (s0.preBuffer ++ cs).isEmpty then none
       else some (flattenChunks (s0.preBuffer ++ cs))) := by
  refine ⟨rfl, ?_⟩
  have h := foldl_audioCallback_recording cs (startRecording s0) rfl
  have hrec : (cs.foldl audioCallback (startRecording s0)).recordingChunks =
      s0.preBuffer ++ cs := by
    rw [h.1]
    rfl
  simp [stopRecording, hrec]

/-- C3: whenever the sanitized LLM response begins with one of the
conversational-opener strings, `clean` returns the regex-stage transform of
the original input and never any part of the LLM response. -/
theorem c3_chat_contamination_falls_back (text raw : String)
    (h : ∃ p ∈ convOpeners, strStartsWith (sanitizeResponse (pyStripS raw)) p = true) :
    clean true (some raw) text = regexClean text := by
  have hc : looksLikeChat (sanitizeResponse (pyStripS raw)) = true := by
    obtain ⟨p, hp, hs⟩ := h
    exact List.any_eq_true.mpr ⟨p, hp, hs⟩
  unfold clean
  by_cases ht : text = ""
  · subst ht
    simp only [if_pos rfl]
    rfl
  · rw [if_neg ht]
    simp [llmClean, hc]

/-- Witness for C3 at the spec's own scenario: a joke answer for
"tell me a joke" is rejected and the regex result wins. -/
theorem c3_chat_contamination_falls_back_witness :
    clean true (some "Sure, here is a joke: knock knock") "tell me a joke" =
      regexClean "tell me a joke" :=
  c3_chat_contamination_falls_back "tell me a joke" "Sure, here is a joke: knock knock"
    ⟨"Sure,", by decide, by decide⟩

/-- C4 counterexample: the claim says the primary retries ONLY on the listed
statuses and on timeouts, but a non-timeout, non-status transport failure on
the first call is also retried — a second HTTP call is made and its 200 body
is returned. -/
theorem c4_counterexample_generic_failure_retried :
    transcribe "key" (fun n => if n = 0 then CallOutcome.failure else CallOutcome.status 200 "hi") =
      ⟨.ok "hi", 2, [3 / 10]⟩ ∧
    (fun n => if n = 0 then CallOutcome.failure else CallOutcome.status 200 "hi") 0 =
      CallOutcome.failure := by
  constructor
  · rfl
  · rfl

/-- C4 amended: the primary transcriber retries on statuses in
{429, 500, 502, 503}, on network timeouts, and on any other exception raised
during the request; it makes at most `_MAX_RETRIES + 1 = 3` calls, sleeping
the fixed backoff schedule 0.3 s then 0.6 s before each retry, and every
call except the last was a retriable outcome.  A non-retried response with
any non-2xx status raises `HTTPStatusError` without retrying.  In particular
500-then-200 makes exactly 2 calls and returns the 200 body's stripped
text, 401 makes exactly 1 call and raises `HTTPStatusError`, 301 likewise
makes exactly 1 call and raises, and 500-500-200 makes 3 calls with sleeps
0.3 s and 0.6 s. -/
theorem c4_amended_retry_policy (apiKey : String) (h : apiKey ≠ "")
    (script : Nat → CallOutcome) :
    (transcribe apiKey script).calls ≤ _MAX_RETRIES + 1 ∧
    (transcribe apiKey script).sleeps =
      _BACKOFF_SCHEDULE.take ((transcribe apiKey script).calls - 1) ∧
    ((List.range ((transcribe apiKey script).calls - 1)).all
      (fun i => retriableOutcome (script i))) = true ∧
    transcribe apiKey
        (fun n => if n = 0 then CallOutcome.status 500 "e" else CallOutcome.status 200 " ok ") =
      ⟨.ok "ok", 2, [3 / 10]⟩ ∧
    transcribe apiKey (fun _ => CallOutcome.status 401 "denied") =
      ⟨.error (.httpStatus 401), 1, []⟩ ∧
    transcribe apiKey (fun _ => CallOutcome.status 301 "moved") =
      ⟨.error (.httpStatus 301), 1, []⟩ ∧
    transcribe apiKey
        (fun n => if n ≤ 1 then CallOutcome.status 500 "e" else CallOutcome.status 200 "done") =
      ⟨.ok "done", 3, [3 / 10, 6 / 10]⟩ := by
  have htr : ∀ sc : Nat → CallOutcome, transcribe apiKey sc = transcribeLoop sc 0 (_MAX_RETRIES + 1) := by
    intro sc
    unfold transcribe
    rw [if_neg h]
  refine ⟨?_, ?_, ?_, ?_, ?_, ?_, ?_⟩
  · rw [htr]
    exact transcribeLoop_calls_le script (_MAX_RETRIES + 1) 0
  · rw [htr]
    have := transcribeLoop_sleeps script (_MAX_RETRIES + 1) 0 (by simp)
    simpa using this
  · rw [htr]
    rw [List.all_eq_true]
    intro i hi
    rw [List.mem_range] at hi
    have h1 : i + 1 < (transcribeLoop script 0 (_MAX_RETRIES + 1)).calls := by omega
    have := transcribeLoop_retries_retriable script (_MAX_RETRIES + 1) 0 i h1
    simpa using this
  · rw [htr]; rfl
  · rw [htr]; rfl
  · rw [htr]; rfl
  · rw [htr]; rfl

/-- Witness for C4's amended theorem at a concrete key and script. -/
theorem c4_amended_retry_policy_witness :
    (transcribe "k" (fun _ => CallOutcome.timeout)).calls ≤ _MAX_RETRIES + 1 ∧
    (transcribe "k" (fun _ => CallOutcome.timeout)).sleeps =
      _BACKOFF_SCHEDULE.take ((transcribe "k" (fun _ => CallOutcome.timeout)).calls - 1) ∧
    ((List.range ((transcribe "k" (fun _ => CallOutcome.timeout)).calls - 1)).all
      (fun i => retriableOutcome ((fun _ : Nat => CallOutcome.timeout) i))) = true ∧
    transcribe "k"
        (fun n => if n = 0 then CallOutcome.status 500 "e" else CallOutcome.status 200 " ok ") =
      ⟨.ok "ok", 2, [3 / 10]⟩ ∧
    transcribe "k" (fun _ => CallOutcome.status 401 "denied") =
      ⟨.error (.httpStatus 401), 1, []⟩ ∧
    transcribe "k" (fun _ => CallOutcome.status 301 "moved") =
      ⟨.error (.httpStatus 301), 1, []⟩ ∧
    transcribe "k"
        (fun n => if n ≤ 1 then CallOutcome.status 500 "e" else CallOutcome.status 200 "done") =
      ⟨.ok "done", 3, [3 / 10, 6 / 10]⟩ :=
  c4_amended_retry_policy "k" (by decide) (fun _ => CallOutcome.timeout)

/-- C5: with the primary selected and credentialled, any primary exception
is caught, the clip is rewound to position 0, and the fallback runs with its
result tagged "local"; without primary selection or credentials the fallback
runs directly; and a fallback exception propagates uncaught whenever the
fallback is invoked. -/
theorem c5_router_fallback_policy (primary apiKey : String) (gp : Nat)
    (gRes lRes : Except Unit String) (pos : Nat) :
    (primary = "groq" → apiKey ≠ "" → gRes = .error () →
      route_transcription primary apiKey gRes gp lRes pos =
        ⟨lRes.map (fun t => (t, "local")), true, some 0⟩) ∧
    ((primary ≠ "groq" ∨ apiKey = "") →
      route_transcription primary apiKey gRes gp lRes pos =
        ⟨lRes.map (fun t => (t, "local")), false, some pos⟩) ∧
    (lRes = .error () →
      (route_transcription primary apiKey gRes gp lRes pos).localCalledAtPos ≠ none →
      (route_transcription primary apiKey gRes gp lRes pos).result = .error ()) := by
  refine ⟨?_, ?_, ?_⟩
  · intro h1 h2 h3
    subst h3
    unfold route_transcription
    rw [if_pos ⟨h1, h2⟩]
  · intro hor
    unfold route_transcription
    rw [if_neg (by tauto)]
  · intro hl
    subst hl
    unfold route_transcription
    by_cases hc : primary = "groq" ∧ apiKey ≠ ""
    · rw [if_pos hc]
      cases gRes with
      | ok t => simp
      | error e => simp [Except.map]
    · rw [if_neg hc]
      simp [Except.map]

/-- Witness for C5 at concrete inputs covering all three conjuncts. -/
theorem c5_router_fallback_policy_witness :
    route_transcription "groq" "k" (Except.error ()) 7 (Except.ok "hi") 5 =
      ⟨Except.ok ("hi", "local"), true, some 0⟩ ∧
    route_transcription "groq" "" (Except.error ()) 7 (Except.ok "hi") 5 =
      ⟨Except.ok ("hi", "local"), false, some 5⟩ ∧
    (route_transcription "groq" "k" (Except.error ()) 7 (Except.error ()) 5).result =
      Except.error () :=
  ⟨(c5_router_fallback_policy "groq" "k" 7 (Except.error ()) (Except.ok "hi") 5).1
      rfl (by decide) rfl,
   (c5_router_fallback_policy "groq" "" 7 (Except.error ()) (Except.ok "hi") 5).2.1
      (Or.inr rfl),
   (c5_router_fallback_policy "groq" "k" 7 (Except.error ()) (Except.error ()) 5).2.2
      rfl (by decide)⟩

/-- C6 counterexample: the claim says every non-empty input cleans to a
non-empty result, but the non-empty input "um" cleans (with the LLM stage
disabled, the constructor default) to the empty string — it is entirely
filler. -/
theorem c6_counterexample_all_filler_input :
    clean false none "um" = "" ∧ ("um" : String) ≠ "" := by
  constructor
  · rfl
  · decide

/-- C6 amended: `clean` is a total function (never raises), returns the
empty string on empty input, and returns the empty string on a non-empty
input only when the regex stage maps that input to empty (an input
consisting solely of filler and whitespace); whenever the regex-stage
transform of the input is non-empty, the result is non-empty. -/
theorem c6_amended_empty_only_for_filler (llmOn : Bool) (llmResp : Option String)
    (text : String) :
    (text = "" → clean llmOn llmResp text = "") ∧
    (clean llmOn llmResp text = "" → regexClean text = "") := by
  constructor
  · intro ht
    subst ht
    simp [clean]
  · intro hc
    by_cases ht : text = ""
    · subst ht
      rfl
    · cases llmOn with
      | false =>
        rw [show clean false llmResp text = regexClean text from by simp [clean, ht]] at hc
        exact hc
      | true =>
        cases hll : llmClean text llmResp with
        | none =>
          rw [show clean true llmResp text = regexClean text from by
                simp [clean, ht, hll]] at hc
          exact hc
        | some r =>
          rw [show clean true llmResp text = if r = "" then regexClean text else r from by
                simp [clean, ht, hll]] at hc
          by_cases hr : r = ""
          · rw [if_pos hr] at hc
            exact hc
          · rw [if_neg hr] at hc
            exact absurd hc hr

/-- Witness for C6's amended theorem with both hypotheses discharged. -/
theorem c6_amended_empty_only_for_filler_witness :
    clean false none "" = "" ∧ regexClean "um" = "" :=
  ⟨(c6_amended_empty_only_for_filler false none "").1 rfl,
   (c6_amended_empty_only_for_filler false none "um").2 (by rfl)⟩

/-- C7: the start trigger is a no-op (state unchanged, recorder untouched,
no cue) whenever the recording or transcribing flag is set; the stop trigger
is a no-op whenever the recording flag is clear; and in every reachable
engine state the two flags are never set together, so at most one session is
in flight. -/
theorem c7_single_session_in_flight :
    (∀ s : EngineState, (s.recording || s.transcribing) = true → onRecordStart s = (s, [])) ∧
    (∀ s : EngineState, s.recording = false → onRecordStop s = (s, [])) ∧
    (∀ s : EngineState, EngineReach s → ¬(s.recording = true ∧ s.transcribing = true)) := by
  refine ⟨?_, ?_, ?_⟩
  · intro s h
    unfold onRecordStart
    rw [if_pos h]
  · intro s h
    unfold onRecordStop
    simp [h]
  · intro s hr
    induction hr with
    | init a => simp
    | start s hs ih =>
      obtain ⟨r, t, a⟩ := s
      cases r <;> cases t <;> simp_all [onRecordStart]
    | stop s hs ih =>
      obtain ⟨r, t, a⟩ := s
      cases r <;> cases t <;> simp_all [onRecordStop, stopRecording] <;> split <;> simp
    | finish s hs ih =>
      simp_all [finishTranscribe]

/-- Witness for C7 at concrete states (the reachable state is the initial
one). -/
theorem c7_single_session_in_flight_witness :
    onRecordStart ⟨true, false, ⟨1, [], [], true⟩⟩ = (⟨true, false, ⟨1, [], [], true⟩⟩, []) ∧
    onRecordStop ⟨false, true, ⟨1, [], [], false⟩⟩ = (⟨false, true, ⟨1, [], [], false⟩⟩, []) ∧
    ¬((⟨false, false, ⟨1, [], [], false⟩⟩ : EngineState).recording = true ∧
      (⟨false, false, ⟨1, [], [], false⟩⟩ : EngineState).transcribing = true) :=
  ⟨c7_single_session_in_flight.1 _ rfl,
   c7_single_session_in_flight.2.1 _ rfl,
   c7_single_session_in_flight.2.2 _ (EngineReach.init _)⟩

/-- C8: while toggle mode is active, a release of the push-to-talk key never
invokes `on_stop`; moreover any sequence of push-to-talk presses and
releases (the keys being distinct) emits no callback at all and leaves
toggle mode active — the stop callback cannot fire until the toggle key is
pressed again. -/
theorem c8_toggle_blocks_ptt_stop (cfg : HotkeyCfg) (s : HotkeyState)
    (es : List KeyEvent) (hton : s.toggleActive = true)
    (hne : cfg.pttKey ≠ cfg.toggleKey)
    (hev : ∀ e ∈ es, e = KeyEvent.press cfg.pttKey ∨ e = KeyEvent.release cfg.pttKey) :
    Callback.cbStop ∉ (hkStep cfg s (KeyEvent.release cfg.pttKey)).2 ∧
    Callback.cbStop ∉ (hkRun cfg s es).2 ∧
    (hkRun cfg s es).1.toggleActive = true := by
  have hrel := ptt_release_preserves_toggle cfg s hton
  have hrun := hkRun_ptt_only_no_stop cfg hne es s hton hev
  refine ⟨?_, ?_, hrun.2⟩
  · show Callback.cbStop ∉ (onRelease cfg s cfg.pttKey).2
    rw [hrel.2]
    simp
  · rw [hrun.1]
    simp

/-- Witness for C8: toggle on, then PTT press and release emit no stop. -/
theorem c8_toggle_blocks_ptt_stop_witness :
    Callback.cbStop ∉ (hkStep ⟨1, 2⟩ ⟨false, true⟩ (KeyEvent.release 1)).2 ∧
    Callback.cbStop ∉ (hkRun ⟨1, 2⟩ ⟨false, true⟩ [KeyEvent.press 1, KeyEvent.release 1]).2 ∧
    (hkRun ⟨1, 2⟩ ⟨false, true⟩ [KeyEvent.press 1, KeyEvent.release 1]).1.toggleActive = true :=
  c8_toggle_blocks_ptt_stop ⟨1, 2⟩ ⟨false, true⟩ [KeyEvent.press 1, KeyEvent.release 1]
    rfl (by decide) (by decide)

/-- C9 counterexample: three repeated presses of the toggle key with no
intervening release invoke `on_start` twice — the claim's "at most once per
press-hold cycle" fails for the toggle key, whose handler flips state on
every press event (as the code's own test of a second toggle press invoking
`on_stop` confirms is intended). -/
theorem c9_counterexample_toggle_repeat :
    countStarts (hkRun ⟨1, 2⟩ ⟨false, false⟩
      [KeyEvent.press 2, KeyEvent.press 2, KeyEvent.press 2]).2 = 2 := by
  rfl

/-- C9 amended: repeated presses of the push-to-talk key with no intervening
release invoke `on_start` at most once (the held flag makes further presses
no-ops); the toggle key has no held-state tracking — each press flips
`toggle_active`, so a run of repeated toggle presses can invoke `on_start`
on every activation. -/
theorem c9_amended_ptt_press_idempotent (cfg : HotkeyCfg)
    (hne : cfg.pttKey ≠ cfg.toggleKey) (s : HotkeyState) (n : Nat) :
    countStarts (hkRun cfg s (List.replicate n (KeyEvent.press cfg.pttKey))).2 ≤ 1 := by
  cases n with
  | zero => simp [hkRun, countStarts]
  | succ m =>
    rw [List.replicate_succ]
    simp only [hkRun, hkStep]
    by_cases hh : s.pttHeld
    · rw [ptt_press_held_noop cfg hne s hh]
      rw [hkRun_ptt_presses_held cfg hne m s hh]
      simp [countStarts]
    · have hstate : (onPress cfg s cfg.pttKey).1 = { s with pttHeld := true } := by
        unfold onPress
        rw [if_pos ⟨rfl, by simp [hh]⟩]
        by_cases ht : s.toggleActive <;> simp [ht]
      have hcbs : countStarts (onPress cfg s cfg.pttKey).2 ≤ 1 := by
        unfold onPress
        rw [if_pos ⟨rfl, by simp [hh]⟩]
        by_cases ht : s.toggleActive <;> simp [ht, countStarts]
      have hrest := hkRun_ptt_presses_held cfg hne m { s with pttHeld := true } rfl
      rw [hstate, hrest]
      simpa [countStarts] using hcbs

/-- Witness for C9's amended theorem: three repeated PTT presses from the
idle state invoke `on_start` at most once. -/
theorem c9_amended_ptt_press_idempotent_witness :
    countStarts (hkRun ⟨1, 2⟩ ⟨false, false⟩
      (List.replicate 3 (KeyEvent.press 1))).2 ≤ 1 :=
  c9_amended_ptt_press_idempotent ⟨1, 2⟩ (by decide) ⟨false, false⟩ 3

/-- C10: the regex stage maps "um so like I went to the store" to exactly
"I went to the store." — fillers removed, whitespace collapsed and trimmed,
first character capitalized, terminal period appended. -/
theorem c10_regex_stage_scenario :
    regexClean "um so like I went to the store" = "I went to the store." := by
  rfl

end Undertone
